import Mathlib

/-!
Shallow embedding of the Shiftroster roster scheduling and approval engine.

Sources embedded:
- src/models/models.py : the User, Shift, ShiftRoster and LeaveRequest rows
  (only the columns the roster engine reads).
- src/routes/roster.py : get_roster, create_roster_entry, update_roster_entry,
  approve_roster_entry, create_bulk_roster.
- src/routes/analytics.py : get_dashboard_metrics.

Modelling conventions:
- Calendar dates and timestamps are ordered day or instant numbers (Nat);
  the only operations the engine applies to them are equality and order.
- A request date string is embedded by the observable outcome of
  datetime.strptime(s, so a DateField is either a parsed date or malformed.
- The Float column hours is modelled as the rationals.
- A JSON payload key that may be absent is an Option field; none means the
  key is missing from the request body.
- The SQLAlchemy session is modelled by explicit state passing: a handler
  takes the store and returns either an error (the store unchanged: the
  handler returned before commit, or rolled back) or the new store.
- The duplicate query inside create_bulk_roster runs with autoflush, so it
  sees rows added earlier in the same batch; the embedding passes the rows
  added by the batch so far to each step.
-/

/-- A user row (models.py class User): only the columns the roster engine
reads are modelled, the primary key and the role name (role_ref.name). -/
structure User where
  id : Nat
  role : String
deriving DecidableEq, Repr

/-- A shift definition row (models.py class Shift): the roster engine only
reads its primary key. -/
structure Shift where
  id : Nat
deriving DecidableEq, Repr

/-- The observable result of parsing a request date string with
datetime.strptime in the YYYY-MM-DD format: a calendar date, or a
ValueError for a malformed string. -/
inductive DateField where
  | valid (d : Nat)
  | malformed
deriving DecidableEq, Repr

/-- A roster entry row (models.py class ShiftRoster, lines 152-167). -/
structure ShiftRoster where
  id : Nat
  employee_id : Nat
  shift_id : Nat
  date : Nat
  hours : ℚ
  status : String
  approved_by : Option Nat
  approved_at : Option Nat
  notes : String
deriving DecidableEq, Repr

/-- A leave request row (models.py class LeaveRequest): only the columns
get_dashboard_metrics reads. -/
structure LeaveRequest where
  employee_id : Nat
  start_date : Nat
  end_date : Nat
  status : String
deriving DecidableEq, Repr

/-- The relational store as the roster engine sees it. next_id models the
autoincrement primary key of the shift_roster table. -/
structure DB where
  users : List User
  shifts : List Shift
  roster : List ShiftRoster
  leaves : List LeaveRequest
  next_id : Nat
deriving DecidableEq, Repr

/-- The JSON body of a create-roster request (single or one element of the
bulk list). none models an absent key. The status, approved_by and
approved_at fields model extra keys a caller may send; the handlers never
read them. -/
structure EntryRequest where
  employee_id : Option Nat := none
  shift_id : Option Nat := none
  date : Option DateField := none
  hours : Option ℚ := none
  notes : Option String := none
  status : Option String := none
  approved_by : Option Nat := none
  approved_at : Option Nat := none
deriving DecidableEq, Repr

/-- The JSON body of an update-roster request. As for EntryRequest, the
status, approved_by and approved_at fields are never read by the handler. -/
structure UpdateRequest where
  employee_id : Option Nat := none
  shift_id : Option Nat := none
  date : Option DateField := none
  hours : Option ℚ := none
  notes : Option String := none
  status : Option String := none
  approved_by : Option Nat := none
  approved_at : Option Nat := none
deriving DecidableEq, Repr

/-- The JSON body of an approve-roster request. -/
structure ApproveRequest where
  action : Option String := none
  notes : Option String := none
deriving DecidableEq, Repr

/-- The query parameters of get_roster. -/
structure RosterQuery where
  start_date : Option DateField := none
  end_date : Option DateField := none
  employee_id : Option Nat := none
  shift_id : Option Nat := none
  status : Option String := none
deriving DecidableEq, Repr

/-- The error responses of the roster routes, keyed by the message the
route returns. -/
inductive RosterError where
  | insufficientPermissions
  | fieldRequired (field : String)
  | employeeNotFound
  | shiftNotFound
  | invalidDateFormat
  | invalidStartDate
  | invalidEndDate
  | conflict
  | entryNotFound
  | invalidAction
deriving DecidableEq, Repr

/-- Equality of handler results is decidable (used to evaluate the
concrete instances). -/
instance exceptDecEq {e a : Type} [DecidableEq e] [DecidableEq a] :
    DecidableEq (Except e a)
  | .ok x, .ok y =>
    if h : x = y then isTrue (by rw [h])
    else isFalse (fun hc => h (Except.ok.inj hc))
  | .error x, .error y =>
    if h : x = y then isTrue (by rw [h])
    else isFalse (fun hc => h (Except.error.inj hc))
  | .ok _, .error _ => isFalse (fun hc => Except.noConfusion hc)
  | .error _, .ok _ => isFalse (fun hc => Except.noConfusion hc)

/-- User.query.get on the primary key. -/
def userExists (db : DB) (uid : Nat) : Bool :=
  db.users.any (fun u => decide (u.id = uid))

/-- Shift.query.get on the primary key. -/
def shiftExists (db : DB) (sid : Nat) : Bool :=
  db.shifts.any (fun s => decide (s.id = sid))

/-- The duplicate query of roster.py lines 105-110 and 304-309: does the
list hold a row for this employee on this date. -/
def hasEntryFor (l : List ShiftRoster) (eid d : Nat) : Bool :=
  l.any (fun r => decide (r.employee_id = eid) && decide (r.date = d))

/-- The role check of roster.py: role_ref.name in the list Admin, Manager. -/
def roleAllowed (u : User) : Bool :=
  decide (u.role = "Admin") || decide (u.role = "Manager")

/-- create_roster_entry (roster.py lines 71-134). The checks appear in
source order: role, required fields (the loop reports the first missing
field), employee lookup, shift lookup, date parse, the duplicate
(employee, date) query, then the insert. The inserted row takes the model
defaults: status pending, no approver, no approval time. -/
def create_roster_entry (db : DB) (current_user : User) (data : EntryRequest) :
    Except RosterError (DB × ShiftRoster) :=
  if ¬ roleAllowed current_user then .error .insufficientPermissions
  else match data.employee_id with
  | none => .error (.fieldRequired "employee_id")
  | some eid =>
    match data.shift_id with
    | none => .error (.fieldRequired "shift_id")
    | some sid =>
      match data.date with
      | none => .error (.fieldRequired "date")
      | some df =>
        match data.hours with
        | none => .error (.fieldRequired "hours")
        | some h =>
          if ¬ userExists db eid then .error .employeeNotFound
          else if ¬ shiftExists db sid then .error .shiftNotFound
          else match df with
          | .malformed => .error .invalidDateFormat
          | .valid d =>
            if hasEntryFor db.roster eid d then .error .conflict
            else
              let entry : ShiftRoster :=
                { id := db.next_id, employee_id := eid, shift_id := sid,
                  date := d, hours := h, status := "pending",
                  approved_by := none, approved_at := none,
                  notes := data.notes.getD "" }
              .ok ({ db with
                      roster := db.roster ++ [entry],
                      next_id := db.next_id + 1 }, entry)

/-- The store after one create request: the new store on success, the
unchanged store on failure (the handler returns before any add). -/
def applyCreate (db : DB) (call : User × EntryRequest) : DB :=
  match create_roster_entry db call.1 call.2 with
  | .ok (db', _) => db'
  | .error _ => db

/-- The store after a sequence of create requests. -/
def applyCreates (db : DB) (calls : List (User × EntryRequest)) : DB :=
  calls.foldl applyCreate db

/-- Decides the no-double-booking invariant: no two rows of the list share
an (employee, date) pair. -/
def noDoubleBookingCheck : List ShiftRoster → Bool
  | [] => true
  | r :: rest => !(hasEntryFor rest r.employee_id r.date) && noDoubleBookingCheck rest

/-- One error of the bulk route: the 1-based position (the i+1 in the
formatted message Entry i+1: ...) and the message after the colon. -/
structure BulkErr where
  pos : Nat
  msg : String
deriving DecidableEq, Repr

/-- The outcome of create_bulk_roster. rejected carries the collected
error list (response 400, session rolled back); ok carries the created
rows (response 201, committed). -/
inductive BulkResult where
  | permissionDenied
  | noEntries
  | rejected (errs : List BulkErr)
  | ok (created : List ShiftRoster)
deriving DecidableEq, Repr

/-- The errors produced by the required-fields loop of create_bulk_roster
(roster.py lines 279-283). The loop appends one error per missing field;
its continue only advances the inner loop, so control then falls through
to the lookups below, where a later access of a missing key raises
KeyError, caught by the per-entry handler at line 327. -/
def missingFields (e : EntryRequest) : List String :=
  (if e.employee_id.isNone then ["employee_id"] else []) ++
  (if e.shift_id.isNone then ["shift_id"] else []) ++
  (if e.date.isNone then ["date"] else []) ++
  (if e.hours.isNone then ["hours"] else [])

/-- The errors the required-fields loop reports: one per missing field, at
the position of the entry. -/
def missingFieldErrs (pos : Nat) (e : EntryRequest) : List BulkErr :=
  (missingFields e).map (fun f => ⟨pos, f ++ " is required"⟩)

/-- The body of the bulk loop (roster.py lines 276-328) for the entry at
1-based position pos, given the store and the rows added earlier in this
batch (pending): the duplicate query runs with autoflush and sees both.
nid is the id the new row receives at flush. Returns the errors this
entry contributes and the row it adds, if any. The KeyError messages
model the per-entry exception handler catching an access of a missing
key (str of the KeyError). -/
def bulkEntryStep (db : DB) (pending : List ShiftRoster) (nid pos : Nat)
    (e : EntryRequest) : List BulkErr × Option ShiftRoster :=
  let pre := missingFieldErrs pos e
  match e.employee_id with
  | none => (pre ++ [⟨pos, "KeyError: employee_id"⟩], none)
  | some eid =>
    if ¬ userExists db eid then (pre ++ [⟨pos, "Employee not found"⟩], none)
    else match e.shift_id with
    | none => (pre ++ [⟨pos, "KeyError: shift_id"⟩], none)
    | some sid =>
      if ¬ shiftExists db sid then (pre ++ [⟨pos, "Shift not found"⟩], none)
      else match e.date with
      | none => (pre ++ [⟨pos, "KeyError: date"⟩], none)
      | some .malformed => (pre ++ [⟨pos, "Invalid date format"⟩], none)
      | some (.valid d) =>
        if hasEntryFor (db.roster ++ pending) eid d then
          (pre ++ [⟨pos, "Employee already scheduled for this date"⟩], none)
        else match e.hours with
        | none => (pre ++ [⟨pos, "KeyError: hours"⟩], none)
        | some h =>
          (pre, some { id := nid, employee_id := eid, shift_id := sid,
                       date := d, hours := h, status := "pending",
                       approved_by := none, approved_at := none,
                       notes := e.notes.getD "" })

/-- The bulk loop: walks the request list, at each step passing the rows
created so far (they are pending in the session and visible to the
duplicate query). Returns all collected errors and all rows added. -/
def bulkLoop (db : DB) : List EntryRequest → Nat → List ShiftRoster →
    List BulkErr × List ShiftRoster
  | [], _, created => ([], created)
  | e :: rest, pos, created =>
    let step := bulkEntryStep db created (db.next_id + created.length) pos e
    match step.2 with
    | some row =>
      let res := bulkLoop db rest (pos + 1) (created ++ [row])
      (step.1 ++ res.1, res.2)
    | none =>
      let res := bulkLoop db rest (pos + 1) created
      (step.1 ++ res.1, res.2)

/-- The error list the bulk loop collects for a request list. -/
def bulkErrors (db : DB) (entries : List EntryRequest) : List BulkErr :=
  (bulkLoop db entries 1 []).1

/-- The rows the bulk loop adds to the session for a request list. -/
def bulkCreated (db : DB) (entries : List EntryRequest) : List ShiftRoster :=
  (bulkLoop db entries 1 []).2

/-- The session state of the bulk loop: the rows added after consuming the
first j entries of the list, starting from the given pending rows. -/
def loopCreated (db : DB) : List EntryRequest → Nat → List ShiftRoster → Nat →
    List ShiftRoster
  | _, _, created, 0 => created
  | [], _, created, _ + 1 => created
  | e :: rest, pos, created, j + 1 =>
    match (bulkEntryStep db created (db.next_id + created.length) pos e).2 with
    | some row => loopCreated db rest (pos + 1) (created ++ [row]) j
    | none => loopCreated db rest (pos + 1) created j

/-- The step the bulk loop performs on the entry at 0-based index j,
relative to a loop started at position pos with the given pending rows. -/
def loopStepAt (db : DB) (l : List EntryRequest) (pos : Nat)
    (created : List ShiftRoster) (j : Nat) : List BulkErr × Option ShiftRoster :=
  let c := loopCreated db l pos created j
  bulkEntryStep db c (db.next_id + c.length) (pos + j) (l.getD j {})

/-- The step the bulk loop performs on the entry at 1-based position k:
its validation errors (reported at position k) and the row it adds. -/
def stepAt (db : DB) (entries : List EntryRequest) (k : Nat) :
    List BulkErr × Option ShiftRoster :=
  loopStepAt db entries 1 [] (k - 1)

/-- create_bulk_roster (roster.py lines 258-346): role check, empty-list
check, the per-entry loop, then all-or-nothing: any error rolls the
session back (store unchanged), otherwise all rows commit. -/
def create_bulk_roster (db : DB) (current_user : User)
    (entries : List EntryRequest) : DB × BulkResult :=
  if ¬ roleAllowed current_user then (db, .permissionDenied)
  else if entries.isEmpty then (db, .noEntries)
  else
    let run := bulkLoop db entries 1 []
    if run.1.isEmpty then
      ({ db with
          roster := db.roster ++ run.2,
          next_id := db.next_id + run.2.length }, .ok run.2)
    else (db, .rejected run.1)

/-- approve_roster_entry (roster.py lines 219-254): role check, lookup,
action check, then unconditionally set status from the action, stamp the
approver and the approval time, and overwrite notes when supplied. There
is no guard on the current status. now models datetime.utcnow(). -/
def approve_roster_entry (db : DB) (current_user : User) (roster_id : Nat)
    (data : ApproveRequest) (now : Nat) : Except RosterError (DB × ShiftRoster) :=
  if ¬ roleAllowed current_user then .error .insufficientPermissions
  else match db.roster.find? (fun r => decide (r.id = roster_id)) with
  | none => .error .entryNotFound
  | some entry =>
    if ¬ (data.action = some "approve" ∨ data.action = some "reject") then
      .error .invalidAction
    else
      let entry' : ShiftRoster :=
        { entry with
            status := if data.action = some "approve" then "approved" else "rejected",
            approved_by := some current_user.id,
            approved_at := some now,
            notes := data.notes.getD entry.notes }
      .ok ({ db with
              roster := db.roster.map
                (fun r => if r.id = roster_id then entry' else r) }, entry')

/-- The store after one approve request (unchanged on failure). -/
def applyApprove (db : DB) (current_user : User) (roster_id : Nat)
    (data : ApproveRequest) (now : Nat) : DB :=
  match approve_roster_entry db current_user roster_id data now with
  | .ok (db', _) => db'
  | .error _ => db

/-- The employee_id branch of update_roster_entry (roster.py lines 154-158). -/
def updEmployee (db : DB) (o : Option Nat) (e : ShiftRoster) :
    Except RosterError ShiftRoster :=
  match o with
  | none => .ok e
  | some eid =>
    if userExists db eid then .ok { e with employee_id := eid }
    else .error .employeeNotFound

/-- The shift_id branch of update_roster_entry (roster.py lines 160-164). -/
def updShift (db : DB) (o : Option Nat) (e : ShiftRoster) :
    Except RosterError ShiftRoster :=
  match o with
  | none => .ok e
  | some sid =>
    if shiftExists db sid then .ok { e with shift_id := sid }
    else .error .shiftNotFound

/-- The date branch of update_roster_entry (roster.py lines 166-170). -/
def updDate (o : Option DateField) (e : ShiftRoster) :
    Except RosterError ShiftRoster :=
  match o with
  | none => .ok e
  | some .malformed => .error .invalidDateFormat
  | some (.valid d) => .ok { e with date := d }

/-- update_roster_entry (roster.py lines 138-187): role check, lookup,
then each supplied field in source order; a failed lookup or date parse
returns before commit, leaving the store unchanged. Only employee_id,
shift_id, date, hours and notes are read from the payload. -/
def update_roster_entry (db : DB) (current_user : User) (roster_id : Nat)
    (data : UpdateRequest) : Except RosterError (DB × ShiftRoster) :=
  if ¬ roleAllowed current_user then .error .insufficientPermissions
  else match db.roster.find? (fun r => decide (r.id = roster_id)) with
  | none => .error .entryNotFound
  | some entry =>
    match updEmployee db data.employee_id entry with
    | .error err => .error err
    | .ok e1 =>
      match updShift db data.shift_id e1 with
      | .error err => .error err
      | .ok e2 =>
        match updDate data.date e2 with
        | .error err => .error err
        | .ok e3 =>
          let e4 := match data.hours with
            | none => e3
            | some h => { e3 with hours := h }
          let e5 := match data.notes with
            | none => e4
            | some n => { e4 with notes := n }
          .ok ({ db with
                  roster := db.roster.map
                    (fun r => if r.id = roster_id then e5 else r) }, e5)

/-- The store after one update request (unchanged on failure). -/
def applyUpdate (db : DB) (current_user : User) (roster_id : Nat)
    (data : UpdateRequest) : DB :=
  match update_roster_entry db current_user roster_id data with
  | .ok (db', _) => db'
  | .error _ => db

/-- True on a successful Except result. -/
def exceptOk {ε α : Type} : Except ε α → Bool
  | .ok _ => true
  | .error _ => false

/-- The filter chain of get_roster (roster.py lines 35-56) as one row
predicate. A filter applies only when its query parameter is present and
truthy (an id of 0 or an empty status string is falsy in the source and
ignored). -/
def queryFilter (q : RosterQuery) (r : ShiftRoster) : Bool :=
  (match q.start_date with
    | some (.valid s) => decide (s ≤ r.date)
    | _ => true) &&
  (match q.end_date with
    | some (.valid e) => decide (r.date ≤ e)
    | _ => true) &&
  (match q.employee_id with
    | some eid => if eid = 0 then true else decide (r.employee_id = eid)
    | none => true) &&
  (match q.shift_id with
    | some sid => if sid = 0 then true else decide (r.shift_id = sid)
    | none => true) &&
  (match q.status with
    | some s => if s = "" then true else decide (r.status = s)
    | none => true)

/-- get_roster (roster.py lines 12-67): role-scoped base query (Admin and
Manager see every row, anyone else only their own), then the filters,
then the join with Shift (an inner join: a row whose shift_id does not
resolve drops out). A malformed date parameter fails first, start before
end. The order-by clause only permutes the rows and is not modelled; the
result is in store order. -/
def get_roster (db : DB) (current_user : User) (q : RosterQuery) :
    Except RosterError (List ShiftRoster) :=
  if q.start_date = some .malformed then .error .invalidStartDate
  else if q.end_date = some .malformed then .error .invalidEndDate
  else
    let base :=
      if roleAllowed current_user then db.roster
      else db.roster.filter (fun r => decide (r.employee_id = current_user.id))
    .ok ((base.filter (queryFilter q)).filter (fun r => shiftExists db r.shift_id))

/-- The metrics object of get_dashboard_metrics. available_employees is an
integer clamped at 0 by the handler; total_scheduled_hours is the Float
sum modelled as a rational. -/
structure Metrics where
  total_employees : Nat
  employees_on_shift : Nat
  employees_on_leave : Nat
  available_employees : Int
  pending_approvals : Nat
  total_scheduled_hours : ℚ
deriving DecidableEq, Repr

/-- An approved roster row dated inside [s, e]. -/
def approvedInRange (s e : Nat) (r : ShiftRoster) : Bool :=
  decide (s ≤ r.date) && decide (r.date ≤ e) && decide (r.status = "approved")

/-- A pending roster row dated inside [s, e]. -/
def pendingInRange (s e : Nat) (r : ShiftRoster) : Bool :=
  decide (s ≤ r.date) && decide (r.date ≤ e) && decide (r.status = "pending")

/-- An approved leave request overlapping [s, e]: start at most e and end
at least s (analytics.py lines 50-56). -/
def leaveOverlaps (s e : Nat) (l : LeaveRequest) : Bool :=
  decide (l.start_date ≤ e) && decide (s ≤ l.end_date) && decide (l.status = "approved")

/-- get_dashboard_metrics (analytics.py lines 12-95) for an already parsed
date range [s, e]: role check, then the six aggregates. The distinct
counts are modelled by dedup on the projected employee ids; the clamp is
max 0 over the integer difference, exactly as in line 88 of the source. -/
def get_dashboard_metrics (db : DB) (current_user : User) (s e : Nat) :
    Except RosterError Metrics :=
  if ¬ roleAllowed current_user then .error .insufficientPermissions
  else
    let total := db.users.length
    let onShift := ((db.roster.filter (approvedInRange s e)).map
      (fun r => r.employee_id)).dedup.length
    let onLeave := ((db.leaves.filter (leaveOverlaps s e)).map
      (fun l => l.employee_id)).dedup.length
    .ok { total_employees := total,
          employees_on_shift := onShift,
          employees_on_leave := onLeave,
          available_employees := max 0 ((total : Int) - onShift - onLeave),
          pending_approvals := (db.roster.filter (pendingInRange s e)).length,
          total_scheduled_hours :=
            ((db.roster.filter (approvedInRange s e)).map (fun r => r.hours)).sum }

/-- A concrete manager principal for the concrete instances below. -/
def mgrA : User := ⟨1, "Manager"⟩

/-- A concrete plain-employee principal. -/
def empB : User := ⟨2, "Employee"⟩

/-- A concrete seed store: a manager and an employee, one shift, no roster
rows yet. -/
def dbSeed : DB :=
  { users := [⟨1, "Manager"⟩, ⟨2, "Employee"⟩],
    shifts := [⟨1⟩],
    roster := [],
    leaves := [],
    next_id := 1 }

/-- A well-formed create request for employee 2 on the given date. -/
def reqA (d : Nat) : EntryRequest :=
  { employee_id := some 2, shift_id := some 1,
    date := some (.valid d), hours := some 8 }

/-- An approved roster row (id 1, employee 2, date 10), as left by an
approve action at time 100 by user 1. -/
def rowA : ShiftRoster :=
  { id := 1, employee_id := 2, shift_id := 1, date := 10, hours := 8,
    status := "approved", approved_by := some 1, approved_at := some 100,
    notes := "" }

/-- rowA after an update set its hours to 4. -/
def rowA4 : ShiftRoster := { rowA with hours := 4 }

/-- rowA after an update set its hours to 6. -/
def rowA6 : ShiftRoster := { rowA with hours := 6 }

/-- A freshly created pending row for employee 2 on day 10. -/
def rowPend10 : ShiftRoster :=
  { id := 1, employee_id := 2, shift_id := 1, date := 10, hours := 8,
    status := "pending", approved_by := none, approved_at := none, notes := "" }

/-- A freshly created pending row for employee 2 on day 12. -/
def rowPend12 : ShiftRoster := { rowPend10 with date := 12 }

/-- An update request that sets hours to 6 and also tries to smuggle
status, approver and approval-time values the handler never reads. -/
def updHack : UpdateRequest :=
  { hours := some 6, status := some "rejected", approved_by := some 9,
    approved_at := some 1 }

/-- An approve request with action approve and notes. -/
def reqApprove : ApproveRequest := { action := some "approve", notes := some "ok" }

/-- A concrete store holding the one approved roster row rowA. -/
def dbOne : DB :=
  { users := [⟨1, "Manager"⟩, ⟨2, "Employee"⟩],
    shifts := [⟨1⟩],
    roster := [rowA],
    leaves := [],
    next_id := 2 }

/-- A create request referencing a nonexistent shift id. -/
def reqBadShift : EntryRequest :=
  { employee_id := some 2, shift_id := some 99,
    date := some (.valid 11), hours := some 8 }

/-- A create request that tries to smuggle approval state in its payload:
the handlers never read these three keys. -/
def reqPreApproved : EntryRequest :=
  { employee_id := some 2, shift_id := some 1,
    date := some (.valid 12), hours := some 8,
    status := some "approved", approved_by := some 9, approved_at := some 77 }

/-- The E7 scenario store: ten employees (user 1 is the manager), one
shift; employee 7 has an approved roster row on day 700 for 8 hours and an
approved leave request covering days 700 to 702. Day 700 stands for
2024-03-01 and day 702 for 2024-03-03. -/
def dbE7 : DB :=
  { users := [⟨1, "Manager"⟩, ⟨2, "Employee"⟩, ⟨3, "Employee"⟩, ⟨4, "Employee"⟩,
              ⟨5, "Employee"⟩, ⟨6, "Employee"⟩, ⟨7, "Employee"⟩, ⟨8, "Employee"⟩,
              ⟨9, "Employee"⟩, ⟨10, "Employee"⟩],
    shifts := [⟨1⟩],
    roster := [{ id := 1, employee_id := 7, shift_id := 1, date := 700,
                 hours := 8, status := "approved", approved_by := some 1,
                 approved_at := some 100, notes := "" }],
    leaves := [⟨7, 700, 702, "approved"⟩],
    next_id := 2 }

/-- hasEntryFor distributes over append. -/
theorem hasEntryFor_append (l1 l2 : List ShiftRoster) (eid d : Nat) :
    hasEntryFor (l1 ++ l2) eid d = (hasEntryFor l1 eid d || hasEntryFor l2 eid d) := by
  simp [hasEntryFor, List.any_append]

/-- Appending a row that conflicts with nothing preserves the
no-double-booking check. -/
theorem noDoubleBookingCheck_append (l : List ShiftRoster) (e : ShiftRoster)
    (hl : noDoubleBookingCheck l = true)
    (he : hasEntryFor l e.employee_id e.date = false) :
    noDoubleBookingCheck (l ++ [e]) = true := by
  induction l with
  | nil => simp [noDoubleBookingCheck, hasEntryFor]
  | cons r rest ih =>
    simp only [noDoubleBookingCheck, Bool.and_eq_true, Bool.not_eq_true'] at hl
    have he1 : ¬ (r.employee_id = e.employee_id ∧ r.date = e.date) := by
      intro hc
      simp [hasEntryFor, List.any_cons, hc.1, hc.2] at he
    have he2 : hasEntryFor rest e.employee_id e.date = false := by
      simp only [hasEntryFor, List.any_cons, Bool.or_eq_false_iff] at he
      simpa [hasEntryFor] using he.2
    show (!(hasEntryFor (rest ++ [e]) r.employee_id r.date) &&
      noDoubleBookingCheck (rest ++ [e])) = true
    rw [hasEntryFor_append, hl.1, ih hl.2 he2]
    simp only [hasEntryFor, List.any_cons, List.any_nil, Bool.or_false,
      Bool.false_or, Bool.and_true, Bool.not_eq_true', Bool.and_eq_false_iff,
      decide_eq_false_iff_not]
    by_cases h1 : r.employee_id = e.employee_id
    · exact Or.inr (fun hc => he1 ⟨h1, hc.symm⟩)
    · exact Or.inl (fun hc => h1 hc.symm)

/-- What a successful single create did: it appended exactly one row, that
row had no (employee, date) conflict with the prior store, and it carries
the model defaults for status, approver and approval time. -/
theorem create_ok_spec {db : DB} {p : User} {r : EntryRequest} {db' : DB}
    {e : ShiftRoster} (h : create_roster_entry db p r = .ok (db', e)) :
    db'.roster = db.roster ++ [e] ∧
    hasEntryFor db.roster e.employee_id e.date = false ∧
    e.status = "pending" ∧ e.approved_by = none ∧ e.approved_at = none := by
  unfold create_roster_entry at h
  repeat' split at h
  all_goals simp_all
  obtain ⟨hdb, he⟩ := h
  subst hdb he
  simp_all

/-- One create call preserves the no-double-booking check. -/
theorem noDoubleBooking_preserved (db : DB) (c : User × EntryRequest)
    (h : noDoubleBookingCheck db.roster = true) :
    noDoubleBookingCheck (applyCreate db c).roster = true := by
  unfold applyCreate
  cases hc : create_roster_entry db c.1 c.2 with
  | error _ => exact h
  | ok res =>
    obtain ⟨db', e⟩ := res
    obtain ⟨hr, hne, -, -, -⟩ := create_ok_spec hc
    rw [hr]
    exact noDoubleBookingCheck_append _ _ h hne

/-- Any sequence of create calls preserves the no-double-booking check. -/
theorem noDoubleBooking_applyCreates (db : DB) (calls : List (User × EntryRequest))
    (h : noDoubleBookingCheck db.roster = true) :
    noDoubleBookingCheck (applyCreates db calls).roster = true := by
  induction calls generalizing db with
  | nil => exact h
  | cons c rest ih =>
    simp only [applyCreates, List.foldl_cons]
    exact ih _ (noDoubleBooking_preserved db c h)

/-- A create request that passes every earlier check but targets an
(employee, date) pair that already has a row fails with the conflict
error. -/
theorem create_conflict {db : DB} {p : User} {r : EntryRequest} {eid sid d : Nat}
    (hrole : roleAllowed p = true)
    (he : r.employee_id = some eid) (hs : r.shift_id = some sid)
    (hd : r.date = some (DateField.valid d)) (hh : r.hours.isSome = true)
    (hue : userExists db eid = true) (hse : shiftExists db sid = true)
    (hdup : hasEntryFor db.roster eid d = true) :
    create_roster_entry db p r = .error .conflict := by
  obtain ⟨hv, hhv⟩ := Option.isSome_iff_exists.mp hh
  simp [create_roster_entry, hrole, he, hs, hd, hhv, hue, hse, hdup]

/-- C1: No double-booking on creation. Starting from a store satisfying
the invariant, any sequence of createRosterEntry calls preserves it: a
successful call appends one non-conflicting row and a failed call changes
nothing. Moreover a create request that reaches the duplicate check for an
(employee, date) pair that already has a row fails with the Conflict error
and persists nothing. -/
theorem c1_no_double_booking
    (db0 db : DB) (calls : List (User × EntryRequest)) (p : User)
    (r : EntryRequest) (eid sid d : Nat)
    (h0 : noDoubleBookingCheck db0.roster = true)
    (hrole : roleAllowed p = true)
    (he : r.employee_id = some eid) (hs : r.shift_id = some sid)
    (hd : r.date = some (DateField.valid d)) (hh : r.hours.isSome = true)
    (hue : userExists db eid = true) (hse : shiftExists db sid = true)
    (hdup : hasEntryFor db.roster eid d = true) :
    noDoubleBookingCheck (applyCreates db0 calls).roster = true ∧
    create_roster_entry db p r = .error RosterError.conflict ∧
    applyCreate db (p, r) = db := by
  refine ⟨noDoubleBooking_applyCreates db0 calls h0, ?_, ?_⟩
  · exact create_conflict hrole he hs hd hh hue hse hdup
  · simp [applyCreate, create_conflict hrole he hs hd hh hue hse hdup]

/-- Witness for C1: two successful creations on distinct dates keep the
invariant, and creating against the store that already holds a row for
(employee 2, date 10) fails with Conflict and leaves the store as it was. -/
theorem c1_no_double_booking_witness :
    noDoubleBookingCheck
      (applyCreates dbSeed [(mgrA, reqA 10), (mgrA, reqA 11)]).roster = true ∧
    create_roster_entry dbOne mgrA (reqA 10) = .error RosterError.conflict ∧
    applyCreate dbOne (mgrA, reqA 10) = dbOne :=
  c1_no_double_booking dbSeed dbOne [(mgrA, reqA 10), (mgrA, reqA 11)] mgrA
    (reqA 10) 2 1 10 (by decide) (by decide) (by decide) (by decide)
    (by decide) (by decide) (by decide) (by decide) (by decide)

/-- Every error of the required-fields loop carries the entry position. -/
theorem missingFieldErrs_pos (pos : Nat) (e : EntryRequest) :
    ∀ b ∈ missingFieldErrs pos e, b.pos = pos := by
  intro b hb
  simp only [missingFieldErrs, List.mem_map] at hb
  obtain ⟨f, -, rfl⟩ := hb
  rfl

/-- Shape of one bulk step: either it errs (no row added, and its errors
are the missing-field reports followed by one error at its position), or
it is clean (no error) and it adds one row carrying the model defaults,
whose (employee, date) pair conflicts with nothing the duplicate query
sees. -/
theorem bulkEntryStep_shape (db : DB) (pending : List ShiftRoster)
    (nid pos : Nat) (e : EntryRequest) :
    (∃ msg, (bulkEntryStep db pending nid pos e).1 =
        missingFieldErrs pos e ++ [⟨pos, msg⟩] ∧
      (bulkEntryStep db pending nid pos e).2 = none) ∨
    ((bulkEntryStep db pending nid pos e).1 = [] ∧
      ∃ row, (bulkEntryStep db pending nid pos e).2 = some row ∧
        row.status = "pending" ∧ row.approved_by = none ∧
        row.approved_at = none ∧ row.id = nid ∧
        hasEntryFor (db.roster ++ pending) row.employee_id row.date = false) := by
  unfold bulkEntryStep
  repeat' split
  all_goals simp_all [missingFieldErrs, missingFields]

/-- Every error one bulk step emits carries the position of its entry. -/
theorem bulkEntryStep_pos (db : DB) (pending : List ShiftRoster)
    (nid pos : Nat) (e : EntryRequest) :
    ∀ b ∈ (bulkEntryStep db pending nid pos e).1, b.pos = pos := by
  intro b hb
  rcases bulkEntryStep_shape db pending nid pos e with ⟨msg, h1, -⟩ | ⟨h1, -⟩
  · rw [h1] at hb
    rcases List.mem_append.mp hb with h | h
    · exact missingFieldErrs_pos pos e b h
    · simp_all
  · simp [h1] at hb

/-- Shifting the step index past the head entry of the loop. -/
theorem loopStepAt_cons_succ (db : DB) (e : EntryRequest)
    (rest : List EntryRequest) (pos : Nat) (created : List ShiftRoster)
    (j : Nat) :
    loopStepAt db (e :: rest) pos created (j + 1) =
      loopStepAt db rest (pos + 1)
        (match (bulkEntryStep db created (db.next_id + created.length) pos e).2 with
         | some row => created ++ [row]
         | none => created) j := by
  have harith : pos + (j + 1) = pos + 1 + j := by omega
  cases hstep : (bulkEntryStep db created (db.next_id + created.length) pos e).2 <;>
    simp only [loopStepAt, loopCreated, hstep, List.getD_cons_succ, harith]

/-- Every error of the step at index j appears among the errors the loop
collects. -/
theorem loopStepAt_mem_errors (db : DB) (l : List EntryRequest) (pos : Nat)
    (created : List ShiftRoster) (j : Nat) (hj : j < l.length) :
    ∀ b ∈ (loopStepAt db l pos created j).1, b ∈ (bulkLoop db l pos created).1 := by
  induction l generalizing pos created j with
  | nil => simp at hj
  | cons e rest ih =>
    intro b hb
    cases j with
    | zero =>
      simp only [loopStepAt, loopCreated, Nat.add_zero, List.getD_cons_zero] at hb
      cases hstep : (bulkEntryStep db created (db.next_id + created.length) pos e).2 <;>
        simp [bulkLoop, hstep, List.mem_append] <;> exact Or.inl hb
    | succ j' =>
      rw [loopStepAt_cons_succ] at hb
      cases hstep : (bulkEntryStep db created (db.next_id + created.length) pos e).2 with
      | some row =>
        rw [hstep] at hb
        have hmem := ih (pos + 1) (created ++ [row]) j' (by simpa using hj) b hb
        simp [bulkLoop, hstep, List.mem_append]
        exact Or.inr hmem
      | none =>
        rw [hstep] at hb
        have hmem := ih (pos + 1) created j' (by simpa using hj) b hb
        simp [bulkLoop, hstep, List.mem_append]
        exact Or.inr hmem

/-- A loop whose every step is error-free collects no errors and adds one
row per entry. -/
theorem bulkLoop_all_ok (db : DB) (l : List EntryRequest) (pos : Nat)
    (created : List ShiftRoster)
    (h : ∀ j, j < l.length → (loopStepAt db l pos created j).1 = []) :
    (bulkLoop db l pos created).1 = [] ∧
    (bulkLoop db l pos created).2.length = created.length + l.length := by
  induction l generalizing pos created with
  | nil => simp [bulkLoop]
  | cons e rest ih =>
    have h0 := h 0 (by simp)
    simp only [loopStepAt, loopCreated, Nat.add_zero, List.getD_cons_zero] at h0
    rcases bulkEntryStep_shape db created (db.next_id + created.length) pos e with
      ⟨msg, h1, -⟩ | ⟨-, row, h2, -⟩
    · rw [h0] at h1
      exact absurd h1.symm (by simp)
    · have hrest : ∀ j, j < rest.length →
          (loopStepAt db rest (pos + 1) (created ++ [row]) j).1 = [] := by
        intro j hj
        have h' := h (j + 1) (by simpa using Nat.succ_lt_succ hj)
        rw [loopStepAt_cons_succ, h2] at h'
        simpa using h'
      obtain ⟨hA, hB⟩ := ih (pos + 1) (created ++ [row]) hrest
      constructor
      · simp [bulkLoop, h2, h0, hA]
      · simp only [bulkLoop, h2]
        simp only [List.length_append, List.length_singleton] at hB
        simp [hB]
        omega

/-- The row a step adds is in the session state right after that step. -/
theorem loopCreated_mem_step (db : DB) (l : List EntryRequest) (pos : Nat)
    (created : List ShiftRoster) (j : Nat) (row : ShiftRoster)
    (hj : j < l.length) (hstep : (loopStepAt db l pos created j).2 = some row) :
    row ∈ loopCreated db l pos created (j + 1) := by
  induction l generalizing pos created j with
  | nil => simp at hj
  | cons e rest ih =>
    cases j with
    | zero =>
      simp only [loopStepAt, loopCreated, Nat.add_zero, List.getD_cons_zero] at hstep
      simp only [loopCreated, hstep]
      simp
    | succ j' =>
      rw [loopStepAt_cons_succ] at hstep
      cases hs : (bulkEntryStep db created (db.next_id + created.length) pos e).2 with
      | some r0 =>
        rw [hs] at hstep
        simp only at hstep
        have := ih (pos + 1) (created ++ [r0]) j' (by simpa using hj) hstep
        simpa [loopCreated, hs] using this
      | none =>
        rw [hs] at hstep
        simp only at hstep
        have := ih (pos + 1) created j' (by simpa using hj) hstep
        simpa [loopCreated, hs] using this

/-- The session state of the loop only grows from one step to the next. -/
theorem loopCreated_mono_succ (db : DB) (l : List EntryRequest) (pos : Nat)
    (created : List ShiftRoster) (j : Nat) (x : ShiftRoster)
    (hx : x ∈ loopCreated db l pos created j) :
    x ∈ loopCreated db l pos created (j + 1) := by
  induction l generalizing pos created j with
  | nil => cases j <;> simpa [loopCreated] using hx
  | cons e rest ih =>
    cases j with
    | zero =>
      simp only [loopCreated] at hx
      cases hs : (bulkEntryStep db created (db.next_id + created.length) pos e).2 with
      | some r0 => simp only [loopCreated, hs]; simp [loopCreated, hx]
      | none => simpa [loopCreated, hs] using hx
    | succ j' =>
      cases hs : (bulkEntryStep db created (db.next_id + created.length) pos e).2 with
      | some r0 =>
        simp only [loopCreated, hs] at hx ⊢
        exact ih _ _ _ hx
      | none =>
        simp only [loopCreated, hs] at hx ⊢
        exact ih _ _ _ hx

/-- The session state of the loop grows monotonically with the step index. -/
theorem loopCreated_mono (db : DB) (l : List EntryRequest) (pos : Nat)
    (created : List ShiftRoster) (j j' : Nat) (hjj : j ≤ j') (x : ShiftRoster)
    (hx : x ∈ loopCreated db l pos created j) :
    x ∈ loopCreated db l pos created j' := by
  induction hjj with
  | refl => exact hx
  | step h ih => exact loopCreated_mono_succ db l pos created _ x ih

/-- A member of the list with the given pair makes the duplicate query
answer yes. -/
theorem hasEntryFor_of_mem {l : List ShiftRoster} {x : ShiftRoster} {eid d : Nat}
    (hx : x ∈ l) (he : x.employee_id = eid) (hd : x.date = d) :
    hasEntryFor l eid d = true := by
  simp only [hasEntryFor, List.any_eq_true]
  exact ⟨x, hx, by simp [he, hd]⟩

/-- Every row the bulk loop adds carries the model defaults: status
pending, no approver, no approval time. -/
theorem bulkLoop_created_pending (db : DB) (l : List EntryRequest) (pos : Nat)
    (created : List ShiftRoster)
    (hc : ∀ c ∈ created,
      c.status = "pending" ∧ c.approved_by = none ∧ c.approved_at = none) :
    ∀ c ∈ (bulkLoop db l pos created).2,
      c.status = "pending" ∧ c.approved_by = none ∧ c.approved_at = none := by
  induction l generalizing pos created with
  | nil => simpa [bulkLoop] using hc
  | cons e rest ih =>
    cases hstep : (bulkEntryStep db created (db.next_id + created.length) pos e).2 with
    | some row =>
      rcases bulkEntryStep_shape db created (db.next_id + created.length) pos e with
        ⟨msg, -, h2⟩ | ⟨-, row', h2, hst, hab, haa, -, -⟩
      · rw [hstep] at h2; cases h2
      · rw [hstep] at h2
        injection h2 with h2
        subst h2
        intro c hc'
        simp only [bulkLoop, hstep] at hc'
        refine ih (pos + 1) (created ++ [row]) ?_ c hc'
        intro c' hc''
        rcases List.mem_append.mp hc'' with h | h
        · exact hc c' h
        · simp only [List.mem_singleton] at h
          subst h
          exact ⟨hst, hab, haa⟩
    | none =>
      intro c hc'
      simp only [bulkLoop, hstep] at hc'
      exact ih (pos + 1) created hc c hc'

/-- A committed bulk request committed exactly the rows its loop created,
appended to the prior store. -/
theorem create_bulk_ok_run {db db2 : DB} {p : User} {entries : List EntryRequest}
    {created : List ShiftRoster}
    (h : create_bulk_roster db p entries = (db2, .ok created)) :
    created = (bulkLoop db entries 1 []).2 ∧
    db2.roster = db.roster ++ created := by
  unfold create_bulk_roster at h
  by_cases h1 : roleAllowed p = true
  on_goal 2 => simp [h1] at h
  by_cases h2 : entries.isEmpty
  · simp [h1, h2] at h
  by_cases h3 : (bulkLoop db entries 1 []).1.isEmpty
  · simp only [h1, h2, h3, Bool.not_true, if_false, if_true, Bool.false_eq_true,
      not_false_eq_true, Prod.mk.injEq] at h
    obtain ⟨h5, h6⟩ := h
    exact ⟨rfl, rfl⟩
  · simp [h1, h2, h3] at h

/-- C2: Bulk creation is all-or-nothing with positioned errors: when the
step for the entry at 1-based position k reports any validation error,
the whole request returns the collected error list, the store is
unchanged (zero rows persisted), and the error list holds an error at
position k; when every step is error-free, all N rows are appended. -/
theorem c2_bulk_atomicity (db : DB) (p : User) (entries : List EntryRequest)
    (hrole : roleAllowed p = true) (hne : entries ≠ []) :
    (∀ k, 1 ≤ k → k ≤ entries.length → (stepAt db entries k).1 ≠ [] →
      create_bulk_roster db p entries = (db, .rejected (bulkErrors db entries)) ∧
      ∃ b ∈ bulkErrors db entries, b.pos = k) ∧
    ((∀ k, 1 ≤ k → k ≤ entries.length → (stepAt db entries k).1 = []) →
      create_bulk_roster db p entries =
        ({ db with
            roster := db.roster ++ bulkCreated db entries,
            next_id := db.next_id + (bulkCreated db entries).length },
         .ok (bulkCreated db entries)) ∧
      (bulkCreated db entries).length = entries.length) := by
  have hempty : entries.isEmpty = false := by
    cases entries
    · exact absurd rfl hne
    · rfl
  constructor
  · intro k hk1 hkN hstep
    obtain ⟨b, hb⟩ := List.exists_mem_of_ne_nil _ hstep
    have hb' : b ∈ (loopStepAt db entries 1 [] (k - 1)).1 := by
      simpa [stepAt] using hb
    have hmem : b ∈ bulkErrors db entries :=
      loopStepAt_mem_errors db entries 1 [] (k - 1) (by omega) b hb'
    have hpos : b.pos = k := by
      have h := bulkEntryStep_pos db (loopCreated db entries 1 [] (k - 1))
        (db.next_id + (loopCreated db entries 1 [] (k - 1)).length)
        (1 + (k - 1)) (entries.getD (k - 1) {}) b (by simpa [loopStepAt] using hb')
      omega
    have hrej : (bulkLoop db entries 1 []).1.isEmpty = false := by
      have hne2 : (bulkLoop db entries 1 []).1 ≠ [] :=
        List.ne_nil_of_mem (by simpa [bulkErrors] using hmem)
      cases hcase : (bulkLoop db entries 1 []).1
      · exact absurd hcase hne2
      · rfl
    refine ⟨?_, ⟨b, hmem, hpos⟩⟩
    unfold create_bulk_roster
    simp [hrole, hempty, hrej, bulkErrors]
  · intro hall
    have hsteps : ∀ j, j < entries.length → (loopStepAt db entries 1 [] j).1 = [] := by
      intro j hj
      have := hall (j + 1) (by omega) (by omega)
      simpa [stepAt] using this
    obtain ⟨hA, hB⟩ := bulkLoop_all_ok db entries 1 [] hsteps
    have hAe : (bulkLoop db entries 1 []).1.isEmpty = true := by
      simp [hA]
    constructor
    · unfold create_bulk_roster
      simp [hrole, hempty, hAe, bulkCreated]
    · simpa [bulkCreated] using hB

/-- Witness for C2: the three-entry batch whose second entry references a
nonexistent shift is rejected whole with an error at position 2 and the
store unchanged; the clean two-entry batch commits both rows. -/
theorem c2_bulk_atomicity_witness :
    (create_bulk_roster dbSeed mgrA [reqA 10, reqBadShift, reqA 12] =
      (dbSeed, .rejected (bulkErrors dbSeed [reqA 10, reqBadShift, reqA 12])) ∧
      ∃ b ∈ bulkErrors dbSeed [reqA 10, reqBadShift, reqA 12], b.pos = 2) ∧
    (create_bulk_roster dbSeed mgrA [reqA 10, reqA 11] =
      ({ dbSeed with
          roster := dbSeed.roster ++ bulkCreated dbSeed [reqA 10, reqA 11],
          next_id := dbSeed.next_id + (bulkCreated dbSeed [reqA 10, reqA 11]).length },
       .ok (bulkCreated dbSeed [reqA 10, reqA 11])) ∧
      (bulkCreated dbSeed [reqA 10, reqA 11]).length = 2) := by
  constructor
  · exact (c2_bulk_atomicity dbSeed mgrA [reqA 10, reqBadShift, reqA 12]
      (by decide) (by decide)).1 2 (by decide) (by decide) (by decide)
  · exact (c2_bulk_atomicity dbSeed mgrA [reqA 10, reqA 11]
      (by decide) (by decide)).2
      (by intro k h1 h2; simp at h2; interval_cases k <;> decide)

/-- C7: In-batch duplicate detection: if the step at position i added a
row for (employee, date) and the later entry at position j names the same
pair (with its earlier checks passing), then the step at position j
reports the duplicate-scheduling conflict at position j — the duplicate
query sees the rows added by the same batch — and the whole batch is
rejected with the store unchanged. -/
theorem c7_in_batch_duplicate (db : DB) (p : User) (entries : List EntryRequest)
    (i j eid sid d : Nat) (rowi : ShiftRoster)
    (hrole : roleAllowed p = true)
    (h1i : 1 ≤ i) (hij : i < j) (hjN : j ≤ entries.length)
    (hstepi : (stepAt db entries i).2 = some rowi)
    (hemp : rowi.employee_id = eid) (hdate : rowi.date = d)
    (hej : (entries.getD (j - 1) {}).employee_id = some eid)
    (hsj : (entries.getD (j - 1) {}).shift_id = some sid)
    (hdj : (entries.getD (j - 1) {}).date = some (DateField.valid d))
    (hue : userExists db eid = true) (hse : shiftExists db sid = true) :
    (∃ b ∈ bulkErrors db entries, b.pos = j ∧
       b.msg = "Employee already scheduled for this date") ∧
    create_bulk_roster db p entries = (db, .rejected (bulkErrors db entries)) := by
  have hrow : rowi ∈ loopCreated db entries 1 [] (j - 1) := by
    have hstep1 : rowi ∈ loopCreated db entries 1 [] ((i - 1) + 1) :=
      loopCreated_mem_step db entries 1 [] (i - 1) rowi (by omega)
        (by simpa [stepAt] using hstepi)
    exact loopCreated_mono db entries 1 [] ((i - 1) + 1) (j - 1) (by omega) rowi hstep1
  have hdup : hasEntryFor (db.roster ++ loopCreated db entries 1 [] (j - 1)) eid d
      = true := by
    rw [hasEntryFor_append]
    have hmm := hasEntryFor_of_mem hrow hemp hdate
    simp [hmm]
  have hmemstep : (⟨j, "Employee already scheduled for this date"⟩ : BulkErr) ∈
      (stepAt db entries j).1 := by
    have hpos : 1 + (j - 1) = j := by omega
    simp only [stepAt, loopStepAt, hpos]
    generalize hgen : entries.getD (j - 1) ({} : EntryRequest) = ej at hej hsj hdj ⊢
    unfold bulkEntryStep
    rw [hej]
    simp [hue, hsj, hse, hdj, hdup]
  have hmem : (⟨j, "Employee already scheduled for this date"⟩ : BulkErr) ∈
      bulkErrors db entries :=
    loopStepAt_mem_errors db entries 1 [] (j - 1) (by omega) _
      (by simpa [stepAt] using hmemstep)
  refine ⟨⟨_, hmem, rfl, rfl⟩, ?_⟩
  have hempty : entries.isEmpty = false := by
    cases entries
    · simp at hjN; omega
    · rfl
  have hrej : (bulkLoop db entries 1 []).1.isEmpty = false := by
    have hne2 : (bulkLoop db entries 1 []).1 ≠ [] :=
      List.ne_nil_of_mem (by simpa [bulkErrors] using hmem)
    cases hcase : (bulkLoop db entries 1 []).1
    · exact absurd hcase hne2
    · rfl
  unfold create_bulk_roster
  simp [hrole, hempty, hrej, bulkErrors]

/-- Witness for C7: the two-entry batch scheduling employee 2 twice on day
10 is rejected whole, with the duplicate conflict reported at position 2. -/
theorem c7_in_batch_duplicate_witness :
    (∃ b ∈ bulkErrors dbSeed [reqA 10, reqA 10], b.pos = 2 ∧
       b.msg = "Employee already scheduled for this date") ∧
    create_bulk_roster dbSeed mgrA [reqA 10, reqA 10] =
      (dbSeed, .rejected (bulkErrors dbSeed [reqA 10, reqA 10])) :=
  c7_in_batch_duplicate dbSeed mgrA [reqA 10, reqA 10] 1 2 2 1 10
    ⟨1, 2, 1, 10, 8, "pending", none, none, ""⟩
    (by decide) (by decide) (by decide) (by decide) (by decide) (by decide)
    (by decide) (by decide) (by decide) (by decide) (by decide) (by decide)

/-- C10: Creation never persists caller-controlled approval state: every
row persisted by the single or the bulk create has status pending and no
approver or approval time, whatever extra keys (status, approved_by,
approved_at) the request payloads carried — the handlers never read those
keys, as the quantification over arbitrary requests shows. -/
theorem c10_creation_pending (db : DB) (p : User) (r : EntryRequest)
    (db' : DB) (e : ShiftRoster) (db2 : DB) (entries : List EntryRequest)
    (created : List ShiftRoster)
    (h1 : create_roster_entry db p r = .ok (db', e))
    (h2 : create_bulk_roster db p entries = (db2, .ok created)) :
    (e.status = "pending" ∧ e.approved_by = none ∧ e.approved_at = none) ∧
    ∀ c ∈ created,
      c.status = "pending" ∧ c.approved_by = none ∧ c.approved_at = none := by
  obtain ⟨-, -, h3, h4, h5⟩ := create_ok_spec h1
  refine ⟨⟨h3, h4, h5⟩, ?_⟩
  obtain ⟨hcr, -⟩ := create_bulk_ok_run h2
  subst hcr
  exact bulkLoop_created_pending db entries 1 [] (by simp)

/-- Witness for C10: both the single create and the one-entry bulk create
given a payload that smuggles approval state (status approved, approver 9,
approval time 77) still persist a pending row with no approver. -/
theorem c10_creation_pending_witness :
    ((⟨1, 2, 1, 12, 8, "pending", none, none, ""⟩ : ShiftRoster).status = "pending" ∧
     (⟨1, 2, 1, 12, 8, "pending", none, none, ""⟩ : ShiftRoster).approved_by = none ∧
     (⟨1, 2, 1, 12, 8, "pending", none, none, ""⟩ : ShiftRoster).approved_at = none) ∧
    ∀ c ∈ [(⟨1, 2, 1, 12, 8, "pending", none, none, ""⟩ : ShiftRoster)],
      c.status = "pending" ∧ c.approved_by = none ∧ c.approved_at = none :=
  c10_creation_pending dbSeed mgrA reqPreApproved
    { dbSeed with
        roster := [⟨1, 2, 1, 12, 8, "pending", none, none, ""⟩], next_id := 2 }
    ⟨1, 2, 1, 12, 8, "pending", none, none, ""⟩
    { dbSeed with
        roster := [⟨1, 2, 1, 12, 8, "pending", none, none, ""⟩], next_id := 2 }
    [reqPreApproved] [⟨1, 2, 1, 12, 8, "pending", none, none, ""⟩]
    (by rfl) (by decide)

/-- The employee branch of an update: on success, only employee_id may
change, and only to the supplied value. -/
theorem updEmployee_ok {db : DB} {o : Option Nat} {e e' : ShiftRoster}
    (h : updEmployee db o e = .ok e') :
    e' = { e with employee_id := o.getD e.employee_id } := by
  cases o with
  | none => simp only [updEmployee] at h; injection h with h; simp [← h]
  | some eid =>
    simp only [updEmployee] at h
    split at h
    · injection h with h; simp [← h]
    · cases h

/-- The shift branch of an update: on success, only shift_id may change,
and only to the supplied value. -/
theorem updShift_ok {db : DB} {o : Option Nat} {e e' : ShiftRoster}
    (h : updShift db o e = .ok e') :
    e' = { e with shift_id := o.getD e.shift_id } := by
  cases o with
  | none => simp only [updShift] at h; injection h with h; simp [← h]
  | some sid =>
    simp only [updShift] at h
    split at h
    · injection h with h; simp [← h]
    · cases h

/-- The date branch of an update: on success the supplied date was absent
or parsed, and only date may change. -/
theorem updDate_ok {o : Option DateField} {e e' : ShiftRoster}
    (h : updDate o e = .ok e') :
    (o = none ∧ e' = e) ∨ ∃ d, o = some (.valid d) ∧ e' = { e with date := d } := by
  cases o with
  | none =>
    simp only [updDate] at h
    injection h with h
    exact Or.inl ⟨rfl, h.symm⟩
  | some df =>
    cases df with
    | valid d =>
      simp only [updDate] at h
      injection h with h
      exact Or.inr ⟨d, rfl, h.symm⟩
    | malformed => simp only [updDate] at h; cases h

/-- What a successful update did: it found the row, rewrote only the
supplied fields among employee_id, shift_id, date, hours and notes, left
status, approver and approval time untouched, and replaced the row in
the store. -/
theorem update_ok_spec {db : DB} {u : User} {rid : Nat} {data : UpdateRequest}
    {db2 : DB} {e2 : ShiftRoster}
    (h : update_roster_entry db u rid data = .ok (db2, e2)) :
    ∃ entry, db.roster.find? (fun r => decide (r.id = rid)) = some entry ∧
      e2.id = entry.id ∧
      e2.status = entry.status ∧ e2.approved_by = entry.approved_by ∧
      e2.approved_at = entry.approved_at ∧
      e2.employee_id = data.employee_id.getD entry.employee_id ∧
      e2.shift_id = data.shift_id.getD entry.shift_id ∧
      (data.date = none → e2.date = entry.date) ∧
      (∀ d, data.date = some (.valid d) → e2.date = d) ∧
      e2.hours = data.hours.getD entry.hours ∧
      e2.notes = data.notes.getD entry.notes ∧
      db2.roster = db.roster.map (fun r => if r.id = rid then e2 else r) := by
  unfold update_roster_entry at h
  split at h
  · cases h
  cases hfind : db.roster.find? (fun r => decide (r.id = rid)) with
  | none => rw [hfind] at h; cases h
  | some entry =>
    rw [hfind] at h
    dsimp only at h
    refine ⟨entry, rfl, ?_⟩
    cases h1 : updEmployee db data.employee_id entry with
    | error err => rw [h1] at h; cases h
    | ok e1 =>
      rw [h1] at h
      dsimp only at h
      cases h2 : updShift db data.shift_id e1 with
      | error err => rw [h2] at h; cases h
      | ok eS =>
        rw [h2] at h
        dsimp only at h
        cases h3 : updDate data.date eS with
        | error err => rw [h3] at h; cases h
        | ok e3 =>
          rw [h3] at h
          dsimp only at h
          injection h with h
          injection h with hdb2 he2
          have hE1 := updEmployee_ok h1
          have hE2 := updShift_ok h2
          have hE3 := updDate_ok h3
          subst hE1 hE2
          constructor
          · rw [← he2]
            rcases hE3 with ⟨-, rfl⟩ | ⟨d, -, rfl⟩ <;>
              cases data.hours <;> cases data.notes <;> simp
          constructor
          · rw [← he2]
            rcases hE3 with ⟨-, rfl⟩ | ⟨d, -, rfl⟩ <;>
              cases data.hours <;> cases data.notes <;> simp
          constructor
          · rw [← he2]
            rcases hE3 with ⟨-, rfl⟩ | ⟨d, -, rfl⟩ <;>
              cases data.hours <;> cases data.notes <;> simp
          constructor
          · rw [← he2]
            rcases hE3 with ⟨-, rfl⟩ | ⟨d, -, rfl⟩ <;>
              cases data.hours <;> cases data.notes <;> simp
          constructor
          · rw [← he2]
            rcases hE3 with ⟨-, rfl⟩ | ⟨d, -, rfl⟩ <;>
              cases data.hours <;> cases data.notes <;> simp
          constructor
          · rw [← he2]
            rcases hE3 with ⟨-, rfl⟩ | ⟨d, -, rfl⟩ <;>
              cases data.hours <;> cases data.notes <;> simp
          constructor
          · intro hnone
            rw [← he2]
            rcases hE3 with ⟨-, rfl⟩ | ⟨d, hsome, rfl⟩
            · cases data.hours <;> cases data.notes <;> simp
            · rw [hnone] at hsome; cases hsome
          constructor
          · intro d hsome
            rw [← he2]
            rcases hE3 with ⟨hnone, rfl⟩ | ⟨d', hsome', rfl⟩
            · rw [hsome] at hnone; cases hnone
            · rw [hsome] at hsome'
              injection hsome' with hsome'
              injection hsome' with hd
              subst hd
              cases data.hours <;> cases data.notes <;> simp
          constructor
          · rw [← he2]
            rcases hE3 with ⟨-, rfl⟩ | ⟨d, -, rfl⟩ <;>
              cases data.hours <;> cases data.notes <;> simp
          constructor
          · rw [← he2]
            rcases hE3 with ⟨-, rfl⟩ | ⟨d, -, rfl⟩ <;>
              cases data.hours <;> cases data.notes <;> simp
          · rw [← hdb2, ← he2]

/-- What an approve or reject does when the role, lookup and action checks
pass: the row is rewritten with the new status, the acting principal as
approver, the current time, and the supplied notes if any — whatever the
current status was. -/
theorem approve_ok_spec {db : DB} {p : User} {rid : Nat} {entry : ShiftRoster}
    {data : ApproveRequest} {now : Nat}
    (hrole : roleAllowed p = true)
    (hfind : db.roster.find? (fun r => decide (r.id = rid)) = some entry)
    (haction : data.action = some "approve" ∨ data.action = some "reject") :
    approve_roster_entry db p rid data now =
      .ok ({ db with
              roster := db.roster.map (fun r => if r.id = rid then
                { entry with
                    status := if data.action = some "approve" then "approved"
                      else "rejected",
                    approved_by := some p.id, approved_at := some now,
                    notes := data.notes.getD entry.notes } else r) },
           { entry with
               status := if data.action = some "approve" then "approved"
                 else "rejected",
               approved_by := some p.id, approved_at := some now,
               notes := data.notes.getD entry.notes }) := by
  unfold approve_roster_entry
  rw [hfind]
  rcases haction with h | h <;> simp [hrole, h]

/-- Counterexample for C3: the single row of dbOne is already approved
(by user 1 at time 100), yet a further approve call with action reject by
the admin user 3 succeeds and changes its status, approver and approval
time. -/
theorem c3_counterexample :
    dbOne.roster.map (fun r => (r.status, r.approved_by, r.approved_at)) =
      [("approved", some 1, some 100)] ∧
    (applyApprove dbOne ⟨3, "Admin"⟩ 1 { action := some "reject" } 555).roster.map
      (fun r => (r.status, r.approved_by, r.approved_at)) =
      [("rejected", some 3, some 555)] := by
  decide

/-- C3 amended: approved and rejected are not guarded terminal states
against the approve/reject action itself: a further setRosterEntryStatus
call on a terminal entry succeeds and overwrites status, approver and
approved-at; but no other mutating operation does — in particular a plain
update always leaves status, approver and approved-at unchanged. -/
theorem c3_terminal_overwrite (db : DB) (p : User) (rid : Nat)
    (entry : ShiftRoster) (data : ApproveRequest) (now : Nat)
    (u : User) (udata : UpdateRequest) (db2 : DB) (e2 : ShiftRoster)
    (hrole : roleAllowed p = true)
    (hfind : db.roster.find? (fun r => decide (r.id = rid)) = some entry)
    (hterm : entry.status = "approved" ∨ entry.status = "rejected")
    (haction : data.action = some "approve" ∨ data.action = some "reject")
    (hupd : update_roster_entry db u rid udata = .ok (db2, e2)) :
    (∃ db' e', approve_roster_entry db p rid data now = .ok (db', e') ∧
      e'.status = (if data.action = some "approve" then "approved"
        else "rejected") ∧
      e'.approved_by = some p.id ∧ e'.approved_at = some now) ∧
    (e2.status = entry.status ∧ e2.approved_by = entry.approved_by ∧
      e2.approved_at = entry.approved_at) := by
  constructor
  · exact ⟨_, _, approve_ok_spec hrole hfind haction, rfl, rfl, rfl⟩
  · obtain ⟨entry', hfind', -, hst, hab, haa, -⟩ := update_ok_spec hupd
    rw [hfind] at hfind'
    injection hfind' with hfind'
    subst hfind'
    exact ⟨hst, hab, haa⟩

/-- Witness for C3 amended: rejecting the already-approved row of dbOne
succeeds and overwrites its approval fields, while a plain update of its
hours leaves them alone. -/
theorem c3_terminal_overwrite_witness :
    (∃ db' e', approve_roster_entry dbOne mgrA 1 { action := some "reject" } 555 =
        .ok (db', e') ∧
      e'.status = (if ({ action := some "reject" } : ApproveRequest).action =
          some "approve" then "approved" else "rejected") ∧
      e'.approved_by = some mgrA.id ∧ e'.approved_at = some 555) ∧
    ((⟨1, 2, 1, 10, 4, "approved", some 1, some 100, ""⟩ : ShiftRoster).status =
        (⟨1, 2, 1, 10, 8, "approved", some 1, some 100, ""⟩ : ShiftRoster).status ∧
      (⟨1, 2, 1, 10, 4, "approved", some 1, some 100, ""⟩ : ShiftRoster).approved_by =
        (⟨1, 2, 1, 10, 8, "approved", some 1, some 100, ""⟩ : ShiftRoster).approved_by ∧
      (⟨1, 2, 1, 10, 4, "approved", some 1, some 100, ""⟩ : ShiftRoster).approved_at =
        (⟨1, 2, 1, 10, 8, "approved", some 1, some 100, ""⟩ : ShiftRoster).approved_at) :=
  c3_terminal_overwrite dbOne mgrA 1
    ⟨1, 2, 1, 10, 8, "approved", some 1, some 100, ""⟩
    { action := some "reject" } 555 mgrA { hours := some 4 }
    { dbOne with roster := [⟨1, 2, 1, 10, 4, "approved", some 1, some 100, ""⟩] }
    ⟨1, 2, 1, 10, 4, "approved", some 1, some 100, ""⟩
    (by decide) (by decide) (by decide) (by decide) (by rfl)

/-- C4: the approve/reject contract: with the role and lookup checks
passed, action approve (resp. reject) succeeds and returns the row with
status approved (resp. rejected), the acting principal as approver, the
current time as approved-at, and notes overwritten exactly when supplied;
any other action value fails with the invalid-action error and leaves the
store unchanged. -/
theorem c4_approve_contract (db : DB) (p : User) (rid : Nat)
    (entry : ShiftRoster) (data : ApproveRequest) (now : Nat)
    (hrole : roleAllowed p = true)
    (hfind : db.roster.find? (fun r => decide (r.id = rid)) = some entry) :
    (data.action = some "approve" →
      ∃ db', approve_roster_entry db p rid data now = .ok (db',
        { entry with
            status := "approved", approved_by := some p.id,
            approved_at := some now, notes := data.notes.getD entry.notes })) ∧
    (data.action = some "reject" →
      ∃ db', approve_roster_entry db p rid data now = .ok (db',
        { entry with
            status := "rejected", approved_by := some p.id,
            approved_at := some now, notes := data.notes.getD entry.notes })) ∧
    (¬ (data.action = some "approve" ∨ data.action = some "reject") →
      approve_roster_entry db p rid data now = .error .invalidAction ∧
      applyApprove db p rid data now = db) := by
  refine ⟨?_, ?_, ?_⟩
  · intro ha
    refine ⟨{ db with
        roster := db.roster.map (fun r => if r.id = rid then
          { entry with
              status := if data.action = some "approve" then "approved"
                else "rejected",
              approved_by := some p.id, approved_at := some now,
              notes := data.notes.getD entry.notes } else r) }, ?_⟩
    rw [approve_ok_spec hrole hfind (Or.inl ha)]
    simp [ha]
  · intro ha
    refine ⟨{ db with
        roster := db.roster.map (fun r => if r.id = rid then
          { entry with
              status := if data.action = some "approve" then "approved"
                else "rejected",
              approved_by := some p.id, approved_at := some now,
              notes := data.notes.getD entry.notes } else r) }, ?_⟩
    rw [approve_ok_spec hrole hfind (Or.inr ha)]
    simp [ha]
  · intro ha
    have herr : approve_roster_entry db p rid data now = .error .invalidAction := by
      unfold approve_roster_entry
      rw [hfind]
      simp [hrole, ha]
    exact ⟨herr, by simp [applyApprove, herr]⟩

/-- Witness for C4: approving the approved row of dbOne again with notes
supplied, at concrete inputs (the reject and invalid-action branches are
instantiated vacuously by the same call). -/
theorem c4_approve_contract_witness :
    (reqApprove.action = some "approve" →
      ∃ db', approve_roster_entry dbOne mgrA 1 reqApprove 200 = .ok (db',
        { rowA with
            status := "approved", approved_by := some mgrA.id,
            approved_at := some 200, notes := reqApprove.notes.getD rowA.notes })) ∧
    (reqApprove.action = some "reject" →
      ∃ db', approve_roster_entry dbOne mgrA 1 reqApprove 200 = .ok (db',
        { rowA with
            status := "rejected", approved_by := some mgrA.id,
            approved_at := some 200, notes := reqApprove.notes.getD rowA.notes })) ∧
    (¬ (reqApprove.action = some "approve" ∨ reqApprove.action = some "reject") →
      approve_roster_entry dbOne mgrA 1 reqApprove 200 = .error .invalidAction ∧
      applyApprove dbOne mgrA 1 reqApprove 200 = dbOne) :=
  c4_approve_contract dbOne mgrA 1 rowA reqApprove 200 (by decide) (by decide)

/-- C8: the update frame property: a successful update changes only the
supplied fields among employee id, shift id, date, hours and notes; every
unsupplied field keeps its prior value, and status, approver and
approved-at are never changed, whatever the request carried; the store
change replaces just that row. -/
theorem c8_update_frame (db : DB) (u : User) (rid : Nat) (data : UpdateRequest)
    (entry : ShiftRoster) (db2 : DB) (e2 : ShiftRoster)
    (hfind : db.roster.find? (fun r => decide (r.id = rid)) = some entry)
    (h : update_roster_entry db u rid data = .ok (db2, e2)) :
    e2.status = entry.status ∧ e2.approved_by = entry.approved_by ∧
    e2.approved_at = entry.approved_at ∧ e2.id = entry.id ∧
    e2.employee_id = data.employee_id.getD entry.employee_id ∧
    e2.shift_id = data.shift_id.getD entry.shift_id ∧
    (data.date = none → e2.date = entry.date) ∧
    (∀ d, data.date = some (.valid d) → e2.date = d) ∧
    e2.hours = data.hours.getD entry.hours ∧
    e2.notes = data.notes.getD entry.notes ∧
    db2.roster = db.roster.map (fun r => if r.id = rid then e2 else r) := by
  obtain ⟨entry', hfind', hid, hst, hab, haa, hemp, hsh, hdn, hds, hh, hn, hdb⟩ :=
    update_ok_spec h
  rw [hfind] at hfind'
  injection hfind' with hfind'
  subst hfind'
  exact ⟨hst, hab, haa, hid, hemp, hsh, hdn, hds, hh, hn, hdb⟩

/-- Witness for C8: updating the hours of the approved row of dbOne with
a payload that also carries status, approver and approval-time values:
only hours changes, everything else keeps its prior value. -/
theorem c8_update_frame_witness :
    rowA6.status = rowA.status ∧ rowA6.approved_by = rowA.approved_by ∧
    rowA6.approved_at = rowA.approved_at ∧ rowA6.id = rowA.id ∧
    rowA6.employee_id = updHack.employee_id.getD rowA.employee_id ∧
    rowA6.shift_id = updHack.shift_id.getD rowA.shift_id ∧
    (updHack.date = none → rowA6.date = rowA.date) ∧
    (∀ d, updHack.date = some (.valid d) → rowA6.date = d) ∧
    rowA6.hours = updHack.hours.getD rowA.hours ∧
    rowA6.notes = updHack.notes.getD rowA.notes ∧
    ({ dbOne with roster := [rowA6] } : DB).roster =
      dbOne.roster.map (fun r => if r.id = 1 then rowA6 else r) :=
  c8_update_frame dbOne mgrA 1 updHack rowA
    { dbOne with roster := [rowA6] } rowA6 (by decide) (by rfl)

/-- C5: visibility scoping of the roster listing: a principal whose role
is neither Admin nor Manager only ever receives rows whose employee id is
their own, whatever filters the query carries (an employee-id filter
naming someone else included); an Admin or Manager receives exactly the
rows matching the filters across all employees (under referential
integrity of shift ids, which the inner join otherwise prunes). -/
theorem c5_visibility (db : DB) (p : User) (q : RosterQuery)
    (l : List ShiftRoster)
    (hri : ∀ r ∈ db.roster, shiftExists db r.shift_id = true)
    (hok : get_roster db p q = .ok l) :
    (roleAllowed p = false → ∀ r ∈ l, r.employee_id = p.id) ∧
    (roleAllowed p = true →
      ∀ r, r ∈ l ↔ r ∈ db.roster ∧ queryFilter q r = true) := by
  unfold get_roster at hok
  split at hok
  · cases hok
  split at hok
  · cases hok
  injection hok with hok
  subst hok
  constructor
  · intro hrole r hr
    simp only [hrole, Bool.false_eq_true, if_false, List.mem_filter,
      decide_eq_true_eq] at hr
    exact hr.1.1.2
  · intro hrole r
    simp only [hrole, if_true, List.mem_filter]
    constructor
    · intro hr
      exact ⟨hr.1.1, hr.1.2⟩
    · intro hr
      exact ⟨⟨hr.1, hr.2⟩, hri r hr.1⟩

/-- Witness for C5: the Employee-role principal (user 2) listing with a
filter naming employee 1 receives only rows of employee 2 (here none);
the manager with an empty query receives the whole roster. -/
theorem c5_visibility_witness :
    ((roleAllowed empB = false →
        ∀ r ∈ ([] : List ShiftRoster), r.employee_id = empB.id) ∧
      (roleAllowed empB = true →
        ∀ r, r ∈ ([] : List ShiftRoster) ↔
          r ∈ dbOne.roster ∧
            queryFilter { employee_id := some 1 } r = true)) ∧
    ((roleAllowed mgrA = false →
        ∀ r ∈ dbOne.roster, r.employee_id = mgrA.id) ∧
      (roleAllowed mgrA = true →
        ∀ r, r ∈ dbOne.roster ↔
          r ∈ dbOne.roster ∧ queryFilter {} r = true)) :=
  ⟨c5_visibility dbOne empB { employee_id := some 1 } []
      (by decide) (by rfl),
    c5_visibility dbOne mgrA {} dbOne.roster (by decide) (by rfl)⟩

/-- C9: update does not re-validate the no-double-booking invariant: from
the empty seed store, two successful creations (employee 2, days 10 and
11) reach a state satisfying the invariant; updating row 1 to day 11 then
succeeds and leaves two rows with the same (employee, date) pair. -/
theorem c9_update_skips_conflict_check :
    noDoubleBookingCheck
      (applyCreates dbSeed [(mgrA, reqA 10), (mgrA, reqA 11)]).roster = true ∧
    exceptOk (update_roster_entry
      (applyCreates dbSeed [(mgrA, reqA 10), (mgrA, reqA 11)]) mgrA 1
      { date := some (.valid 11) }) = true ∧
    noDoubleBookingCheck
      (applyUpdate (applyCreates dbSeed [(mgrA, reqA 10), (mgrA, reqA 11)]) mgrA 1
        { date := some (.valid 11) }).roster = false := by
  decide

/-- C6: the dashboard metrics equal the reference definitions: total is
the employee count; on-shift and on-leave are cardinalities of the sets
of distinct employee ids with an approved roster row dated in range,
resp. an approved leave request overlapping the range (start at most
range end and end at least range start); available is the clamped integer
difference and never negative; pending counts pending rows in range;
scheduled hours sums hours of approved rows in range. The E7 scenario
(day 700 as 2024-03-01) yields exactly total 10, on-shift 1, on-leave 1,
available 8, pending 0, hours 8. -/
theorem c6_dashboard :
    (∀ (db : DB) (p : User) (s e : Nat), roleAllowed p = true →
      ∃ m, get_dashboard_metrics db p s e = .ok m ∧
        m.total_employees = db.users.length ∧
        m.employees_on_shift =
          ((db.roster.filter (approvedInRange s e)).map
            (fun r => r.employee_id)).toFinset.card ∧
        m.employees_on_leave =
          ((db.leaves.filter (leaveOverlaps s e)).map
            (fun l => l.employee_id)).toFinset.card ∧
        m.available_employees =
          max 0 ((db.users.length : Int) - m.employees_on_shift -
            m.employees_on_leave) ∧
        0 ≤ m.available_employees ∧
        m.pending_approvals = (db.roster.filter (pendingInRange s e)).length ∧
        m.total_scheduled_hours =
          ((db.roster.filter (approvedInRange s e)).map (fun r => r.hours)).sum) ∧
    get_dashboard_metrics dbE7 mgrA 700 700 =
      .ok { total_employees := 10, employees_on_shift := 1,
            employees_on_leave := 1, available_employees := 8,
            pending_approvals := 0, total_scheduled_hours := 8 } := by
  constructor
  · intro db p s e hrole
    have heq : get_dashboard_metrics db p s e = .ok
        { total_employees := db.users.length,
          employees_on_shift :=
            ((db.roster.filter (approvedInRange s e)).map
              (fun r => r.employee_id)).dedup.length,
          employees_on_leave :=
            ((db.leaves.filter (leaveOverlaps s e)).map
              (fun l => l.employee_id)).dedup.length,
          available_employees := max 0 ((db.users.length : Int) -
            ((db.roster.filter (approvedInRange s e)).map
              (fun r => r.employee_id)).dedup.length -
            ((db.leaves.filter (leaveOverlaps s e)).map
              (fun l => l.employee_id)).dedup.length),
          pending_approvals := (db.roster.filter (pendingInRange s e)).length,
          total_scheduled_hours :=
            ((db.roster.filter (approvedInRange s e)).map
              (fun r => r.hours)).sum } := by
      unfold get_dashboard_metrics
      simp [hrole]
    refine ⟨_, heq, rfl, ?_, ?_, rfl, le_max_left 0 _, rfl, rfl⟩
    · simp [List.card_toFinset]
    · simp [List.card_toFinset]
  · unfold get_dashboard_metrics
    norm_num [dbE7, mgrA, roleAllowed, approvedInRange, leaveOverlaps,
      pendingInRange]
    decide

/-- Witness for C6: the reference characterization instantiated on the E7
scenario store over the one-day range 700. -/
theorem c6_dashboard_witness :
    ∃ m, get_dashboard_metrics dbE7 mgrA 700 700 = .ok m ∧
      m.total_employees = dbE7.users.length ∧
      m.employees_on_shift =
        ((dbE7.roster.filter (approvedInRange 700 700)).map
          (fun r => r.employee_id)).toFinset.card ∧
      m.employees_on_leave =
        ((dbE7.leaves.filter (leaveOverlaps 700 700)).map
          (fun l => l.employee_id)).toFinset.card ∧
      m.available_employees =
        max 0 ((dbE7.users.length : Int) - m.employees_on_shift -
          m.employees_on_leave) ∧
      0 ≤ m.available_employees ∧
      m.pending_approvals = (dbE7.roster.filter (pendingInRange 700 700)).length ∧
      m.total_scheduled_hours =
        ((dbE7.roster.filter (approvedInRange 700 700)).map
          (fun r => r.hours)).sum :=
  c6_dashboard.1 dbE7 mgrA 700 700 (by decide)
